import Mathlib

/-!
Shallow embedding of the HEIC-to-JPEG batch converter
(`convert_heic_to_jpeg.js`, with `convert_heic_to_jpeg.pde` and
`convert_heic_to_jpeg.bat` as redundant front ends of the same algorithm).

The embedding models the Node.js `main` function: argument parsing,
capability probe, directory checks, enumeration of `.heic` candidates,
the per-file three-strategy conversion with fallback, optional deletion of
originals, aggregate bookkeeping, and the final console report.  The
external world (ImageMagick exit statuses, the file system) is an explicit
`Env` record; the run produces a trace of observable events (subprocess
invocations, deletion attempts) so that short-circuiting and
"file untouched" properties can be stated.
-/

namespace ConvertTools

/-- One directory entry as seen by `fs.readdirSync` + `fs.lstatSync`:
a name and whether `lstat` reports a regular file. -/
structure Entry where
  name : String
  isFile : Bool
deriving DecidableEq

/-- The external world of one run: whether `magick -version` exits 0,
the file system's answers about the target directory, the exit status of
each conversion command, the error text of a failing command, and whether
`fs.unlinkSync` succeeds on a path.  `fileExists` records which output
paths already hold a file; the code never consults it (no uniqueness
check before overwriting an output). -/
structure Env where
  toolAvailable : Bool
  dirExists : String → Bool
  isDirectory : String → Bool
  dirReadable : String → Bool
  entriesOf : String → List Entry
  exitZero : String → Bool
  errorText : String → String
  deleteSucceeds : String → Bool
  fileExists : String → Bool
  cwd : String
  resolve : String → String

/-- `toLowerCase()` on the (ASCII) strings the script compares:
lower-case each character. -/
def lowerStr (s : String) : String := String.mk (s.toList.map Char.toLower)

/-- `endsWith()`: the suffix's characters are a suffix of the string's. -/
def endsWithStr (s suffix : String) : Bool := suffix.toList.isSuffixOf s.toList

/-- Argument parsing of `main` (`convert_heic_to_jpeg.js` lines 64-95):
no argument uses the current directory in preserve mode; a single
argument equal (case-insensitively) to "delete" enables delete mode in
the current directory, any other single argument is a folder; with two
arguments the first is the folder and the second enables delete mode iff
it equals "delete" case-insensitively.  Three or more arguments match no
branch, leaving the defaults. -/
def parseArgs (env : Env) (args : List String) : String × Bool :=
  match args with
  | [] => (env.cwd, false)
  | [a] =>
      if lowerStr a == "delete" then (env.cwd, true)
      else (env.resolve a, false)
  | [a, b] => (env.resolve a, lowerStr b == "delete")
  | _ => (env.cwd, false)

/-- Candidate filter (`convert_heic_to_jpeg.js` lines 137-141): the name
lower-cased ends with ".heic" and `lstat` reports a regular file. -/
def isHeicCandidate (e : Entry) : Bool :=
  endsWithStr (lowerStr e.name) ".heic" && e.isFile

/-- Directory enumeration (named after `findHeicFiles` in the Processing
front end): filter the directory's own entries, never descending into
subdirectories. -/
def findHeicFiles (entries : List Entry) : List String :=
  (entries.filter isHeicCandidate).map Entry.name

/-- Index of the last '.' in a character list, if any. -/
def lastDotIdx (cs : List Char) : Option Nat :=
  match cs.reverse.findIdx? (· == '.') with
  | none => none
  | some j => some (cs.length - 1 - j)

/-- `path.parse(fileName).name` of Node.js: the name up to the last dot,
except that a dot at position 0 (a dotfile such as ".heic") starts no
extension. -/
def baseName (fileName : String) : String :=
  let cs := fileName.toList
  match lastDotIdx cs with
  | none => fileName
  | some 0 => fileName
  | some i => String.mk (cs.take i)

/-- `path.join` with a fixed separator. -/
def joinPath (dir name : String) : String := dir ++ "/" ++ name

/-- The output path of a target (`convert_heic_to_jpeg.js` lines 160-162):
same parent directory, same base name, ".jpg" extension. -/
def outputPath (dir fileName : String) : String :=
  joinPath dir (baseName fileName ++ ".jpg")

/-- Wrap a path in double quotes as the shell command strings do. -/
def quoted (s : String) : String := "\"" ++ s ++ "\""

/-- The three conversion command shapes, in order
(`convert_heic_to_jpeg.js` lines 172-186): direct with quality 90,
explicit heic: format prefix with quality 90, and auto-orient with
quality 90. -/
def strategyCommand (inPath outPath : String) : Nat → String
  | 0 => "magick " ++ quoted inPath ++ " -quality 90 " ++ quoted outPath
  | 1 => "magick heic:" ++ quoted inPath ++ " -quality 90 " ++ quoted outPath
  | _ => "magick " ++ quoted inPath ++ " -auto-orient -quality 90 " ++ quoted outPath

/-- The nested try/catch fallback (named after `convertSingleFile` in the
Processing front end): run strategy 0; on nonzero exit run strategy 1; on
nonzero exit run strategy 2.  Returns the index of the first succeeding
strategy (if any) together with the list of strategy indices actually
invoked, in order. -/
def convertSingleFile (env : Env) (inPath outPath : String) : Option Nat × List Nat :=
  if env.exitZero (strategyCommand inPath outPath 0) then (some 0, [0])
  else if env.exitZero (strategyCommand inPath outPath 1) then (some 1, [0, 1])
  else if env.exitZero (strategyCommand inPath outPath 2) then (some 2, [0, 1, 2])
  else (none, [0, 1, 2])

/-- Sub-status of the original-file removal step. -/
inductive DeleteStatus where
  | notAttempted
  | deleted
  | deleteFailed
deriving DecidableEq

/-- Per-target result: Converted (with the output path and the deletion
sub-status) or Failed carrying the last strategy's error text. -/
inductive Outcome where
  | converted (outPath : String) (del : DeleteStatus)
  | failed (lastError : String)
deriving DecidableEq

/-- Observable event of a run: a conversion subprocess invocation, or a
deletion attempt and its result. -/
inductive Event where
  | strategy (file : String) (idx : Nat) (cmd : String)
  | deleteAttempt (file : String)
  | deleted (file : String)
  | deleteFailedOn (file : String)
deriving DecidableEq

/-- Outcome and event trace of one target. -/
structure FileResult where
  outcome : Outcome
  events : List Event
deriving DecidableEq

/-- The trace of conversion subprocess invocations for one target: one
event per strategy actually run, in order, carrying the exact command. -/
def stratEvents (env : Env) (dir fileName : String) : List Event :=
  (convertSingleFile env (joinPath dir fileName) (outputPath dir fileName)).2.map
    (fun i =>
      Event.strategy fileName i
        (strategyCommand (joinPath dir fileName) (outputPath dir fileName) i))

/-- Per-target processing (`convert_heic_to_jpeg.js` lines 156-215): try
the strategies in order; on success, if delete mode is on, attempt
`fs.unlinkSync` on the original — a deletion failure only warns and the
target still counts as converted; if all strategies fail the outcome is
Failed with the last strategy's error text and the original is not
touched. -/
def processFile (env : Env) (dir : String) (deleteOriginals : Bool)
    (fileName : String) : FileResult :=
  match (convertSingleFile env (joinPath dir fileName) (outputPath dir fileName)).1 with
  | some _ =>
      if deleteOriginals then
        if env.deleteSucceeds (joinPath dir fileName) then
          { outcome := .converted (outputPath dir fileName) .deleted,
            events := stratEvents env dir fileName ++
              [.deleteAttempt fileName, .deleted fileName] }
        else
          { outcome := .converted (outputPath dir fileName) .deleteFailed,
            events := stratEvents env dir fileName ++
              [.deleteAttempt fileName, .deleteFailedOn fileName] }
      else
        { outcome := .converted (outputPath dir fileName) .notAttempted,
          events := stratEvents env dir fileName }
  | none =>
      { outcome :=
          .failed (env.errorText
            (strategyCommand (joinPath dir fileName) (outputPath dir fileName) 2)),
        events := stratEvents env dir fileName }

/-- Aggregate counters of a run. -/
structure RunSummary where
  found : Nat
  converted : Nat
  failed : Nat
  deleted : Nat
  deleteFailed : Nat
deriving DecidableEq

/-- Whether an outcome is Converted. -/
def isConvertedB : Outcome → Bool
  | .converted _ _ => true
  | .failed _ => false

/-- Whether an outcome's deletion sub-status is Deleted. -/
def isDeletedB : Outcome → Bool
  | .converted _ .deleted => true
  | _ => false

/-- Whether an outcome's deletion sub-status is DeleteFailed. -/
def isDeleteFailedB : Outcome → Bool
  | .converted _ .deleteFailed => true
  | _ => false

/-- The final console report (`convert_heic_to_jpeg.js` lines 217-221):
"Conversion complete!", the converted count, and the failed count only
when it is positive. -/
structure FinalReport where
  convertedLine : Nat
  failedLine : Option Nat
deriving DecidableEq

/-- Result of a non-fatal run: the aggregate summary, the per-target
results in order, and the final report (absent on the zero-candidate
early exit, which prints only a notice). -/
structure RunResult where
  summary : RunSummary
  results : List FileResult
  report : Option FinalReport
deriving DecidableEq

/-- Fatal precondition failures, each exiting with status 1. -/
inductive FatalError where
  | toolUnavailable
  | directoryNotFound
  | notADirectory
  | cannotReadDir
deriving DecidableEq

/-- Result of a whole invocation. -/
inductive MainResult where
  | fatal (e : FatalError)
  | ok (r : RunResult)
deriving DecidableEq

/-- Process exit status: 1 on fatal precondition failure, 0 otherwise. -/
def exitCode : MainResult → Nat
  | .fatal _ => 1
  | .ok _ => 0

/-- The conversion loop over all candidates (named after `convertFiles`
in the Processing front end): process each target in enumeration order,
tallying converted and failed, and build the final report. -/
def convertFiles (env : Env) (dir : String) (deleteOriginals : Bool)
    (files : List String) : RunResult :=
  let results := files.map (processFile env dir deleteOriginals)
  let conv := results.countP (fun r => isConvertedB r.outcome)
  let fail := results.countP (fun r => !isConvertedB r.outcome)
  { summary :=
      { found := files.length, converted := conv, failed := fail,
        deleted := results.countP (fun r => isDeletedB r.outcome),
        deleteFailed := results.countP (fun r => isDeleteFailedB r.outcome) },
    results := results,
    report := some { convertedLine := conv,
                     failedLine := if 0 < fail then some fail else none } }

/-- The body of `main` after argument parsing
(`convert_heic_to_jpeg.js` lines 100-221): probe the tool (fatal on
failure), check the directory exists, is a directory and is readable
(each fatal on failure), enumerate candidates, exit normally with no
report when none are found, otherwise run the conversion loop. -/
def mainCore (env : Env) (dir : String) (deleteOriginals : Bool) : MainResult :=
  if env.toolAvailable = false then .fatal .toolUnavailable
  else if env.dirExists dir = false then .fatal .directoryNotFound
  else if env.isDirectory dir = false then .fatal .notADirectory
  else if env.dirReadable dir = false then .fatal .cannotReadDir
  else if (findHeicFiles (env.entriesOf dir)).isEmpty then
    .ok { summary := ⟨0, 0, 0, 0, 0⟩, results := [], report := none }
  else
    .ok (convertFiles env dir deleteOriginals (findHeicFiles (env.entriesOf dir)))

/-- The whole invocation: parse the arguments, then run the body. -/
def main (env : Env) (args : List String) : MainResult :=
  let p := parseArgs env args
  mainCore env p.1 p.2

/-- All observable events of an invocation, in order. -/
def mainEvents : MainResult → List Event
  | .fatal _ => []
  | .ok r => (r.results.map FileResult.events).flatten

/-- The final report of an invocation, when one is emitted. -/
def mainReport : MainResult → Option FinalReport
  | .fatal _ => none
  | .ok r => r.report

/-- The aggregate summary of an invocation, on non-fatal runs. -/
def mainSummary : MainResult → Option RunSummary
  | .fatal _ => none
  | .ok r => some r.summary

/-- The file an event concerns. -/
def eventFile : Event → String
  | .strategy f _ _ => f
  | .deleteAttempt f => f
  | .deleted f => f
  | .deleteFailedOn f => f

/-! ### Concrete environments for witnesses and scenarios -/

/-- The scenario directory of the spec: `a.heic`, `b.heic`, `c.HEIC`
and `notes.txt`, all regular files. -/
def demoEntries : List Entry :=
  [⟨"a.heic", true⟩, ⟨"b.heic", true⟩, ⟨"c.HEIC", true⟩, ⟨"notes.txt", true⟩]

/-- A healthy world: tool available, directory fine, every conversion
command exits 0, deletions succeed. -/
def demoEnv : Env where
  toolAvailable := true
  dirExists := fun _ => true
  isDirectory := fun _ => true
  dirReadable := fun _ => true
  entriesOf := fun _ => demoEntries
  exitZero := fun _ => true
  errorText := fun _ => "convert error"
  deleteSucceeds := fun _ => true
  fileExists := fun _ => false
  cwd := "/photos"
  resolve := fun s => s

/-- A directory with no HEIC candidates. -/
def emptyDirEnv : Env := { demoEnv with entriesOf := fun _ => [⟨"notes.txt", true⟩] }

/-- A world where the external tool is unavailable. -/
def noToolEnv : Env := { demoEnv with toolAvailable := false }

/-- A world where every conversion command fails with exit status 1. -/
def allFailEnv : Env := { demoEnv with exitZero := fun _ => false }

/-- A world where conversion succeeds but deletion of originals fails. -/
def deleteFailEnv : Env := { demoEnv with deleteSucceeds := fun _ => false }

/-- A world where, for a.heic, only the second strategy's command exits 0. -/
def secondTryEnv : Env :=
  { demoEnv with exitZero := fun c =>
      c == strategyCommand (joinPath "/photos" "a.heic") (outputPath "/photos" "a.heic") 1 }

/-- The run result over the scenario directory in preserve mode. -/
def demoRun : RunResult :=
  convertFiles demoEnv "/photos" false (findHeicFiles demoEntries)

/-! ### Helper lemmas -/

/-- The two deletion events a successful delete-mode target appends to
its trace, according to whether `fs.unlinkSync` succeeds. -/
def delEvents (env : Env) (dir f : String) : List Event :=
  if env.deleteSucceeds (joinPath dir f) then
    [.deleteAttempt f, .deleted f]
  else
    [.deleteAttempt f, .deleteFailedOn f]

/-- The converted-ness of a target's outcome is exactly the success of
some strategy: it does not depend on the delete flag or on whether the
deletion succeeds. -/
lemma isConvertedB_processFile (env : Env) (dir : String) (del : Bool) (f : String) :
    isConvertedB (processFile env dir del f).outcome =
      (convertSingleFile env (joinPath dir f) (outputPath dir f)).1.isSome := by
  rcases hc : (convertSingleFile env (joinPath dir f) (outputPath dir f)).1 with _ | n <;>
    rcases Bool.eq_false_or_eq_true del with hdel | hdel <;>
    rcases Bool.eq_false_or_eq_true (env.deleteSucceeds (joinPath dir f)) with hd | hd <;>
    simp [processFile, hc, hdel, hd, isConvertedB]

/-- A target's event trace is its strategy invocations followed by the
deletion events exactly when conversion succeeded in delete mode. -/
lemma processFile_events (env : Env) (dir : String) (del : Bool) (f : String) :
    (processFile env dir del f).events =
      stratEvents env dir f ++
        (if (convertSingleFile env (joinPath dir f) (outputPath dir f)).1.isSome && del
          then delEvents env dir f else []) := by
  rcases hc : (convertSingleFile env (joinPath dir f) (outputPath dir f)).1 with _ | n <;>
    rcases Bool.eq_false_or_eq_true del with hdel | hdel <;>
    rcases Bool.eq_false_or_eq_true (env.deleteSucceeds (joinPath dir f)) with hd | hd <;>
    simp [processFile, delEvents, hc, hdel, hd]

/-- A strategy event drawn from a target's invocation trace names an
index the fallback chain actually ran. -/
lemma mem_stratEvents (env : Env) (dir f g : String) (m : Nat) (c : String)
    (h : Event.strategy g m c ∈ stratEvents env dir f) :
    m ∈ (convertSingleFile env (joinPath dir f) (outputPath dir f)).2 := by
  simp only [stratEvents, List.mem_map] at h
  rcases h with ⟨i, hi, he⟩
  simp only [Event.strategy.injEq] at he
  exact he.2.1 ▸ hi

/-- Deletion-attempt events never occur among strategy invocations. -/
lemma deleteAttempt_not_mem_stratEvents (env : Env) (dir f g : String) :
    Event.deleteAttempt g ∉ stratEvents env dir f := by
  simp [stratEvents]

/-- A strategy event in a target's trace names that target's file and
carries exactly the command computed for that strategy index — in
particular every invocation writes to the computed output path. -/
lemma strategy_event_shape (env : Env) (dir : String) (del : Bool) (f g : String)
    (m : Nat) (c : String)
    (h : Event.strategy g m c ∈ (processFile env dir del f).events) :
    g = f ∧ c = strategyCommand (joinPath dir f) (outputPath dir f) m := by
  rw [processFile_events] at h
  rcases List.mem_append.1 h with h' | h'
  · simp only [stratEvents, List.mem_map] at h'
    rcases h' with ⟨i, hi, he⟩
    simp only [Event.strategy.injEq] at he
    rcases he with ⟨hf, hm, hcmd⟩
    exact ⟨hf.symm, by rw [← hcmd, hm]⟩
  · split at h'
    · unfold delEvents at h'
      split at h' <;> simp at h'
    · simp at h'

/-- Every strategy event in a target's trace carries an index that the
fallback chain actually invoked. -/
lemma strategy_event_invoked (env : Env) (dir : String) (del : Bool) (f g : String)
    (m : Nat) (c : String)
    (h : Event.strategy g m c ∈ (processFile env dir del f).events) :
    m ∈ (convertSingleFile env (joinPath dir f) (outputPath dir f)).2 := by
  rw [processFile_events] at h
  rcases List.mem_append.1 h with h' | h'
  · exact mem_stratEvents env dir f g m c h'
  · split at h'
    · unfold delEvents at h'
      split at h' <;> simp at h'
    · simp at h'

/-- `countP p` and `countP (not ∘ p)` partition a list's length. -/
lemma countP_add_countP_not {α : Type} (l : List α) (p : α → Bool) :
    l.countP p + l.countP (fun a => !p a) = l.length := by
  induction l with
  | nil => simp
  | cons a t ih =>
      rcases Bool.eq_false_or_eq_true (p a) with h | h <;>
        simp [List.countP_cons, h] <;> omega

/-! ### Claims -/

/-- C3: directory enumeration is non-recursive and selects exactly the
regular files whose name lower-cased ends in ".heic"; on the scenario
directory {a.heic, b.heic, c.HEIC, notes.txt} with delete off and the
tool succeeding, the run finds 3 candidates, converts 3, and no event
ever touches notes.txt. -/
theorem enumeration_exact :
    (∀ (entries : List Entry) (f : String),
        f ∈ findHeicFiles entries ↔
          ∃ e ∈ entries, e.name = f ∧ e.isFile = true ∧
            endsWithStr (lowerStr f) ".heic" = true) ∧
    findHeicFiles demoEntries = ["a.heic", "b.heic", "c.HEIC"] ∧
    mainSummary (main demoEnv ["/photos"]) = some ⟨3, 3, 0, 0, 0⟩ ∧
    (∀ e ∈ mainEvents (main demoEnv ["/photos"]), eventFile e ≠ "notes.txt") := by
  refine ⟨?_, by decide, by decide, by decide⟩
  intro entries f
  constructor
  · intro hf
    rcases List.mem_map.1 hf with ⟨e, he, rfl⟩
    rcases List.mem_filter.1 he with ⟨hmem, hcand⟩
    simp only [isHeicCandidate, Bool.and_eq_true] at hcand
    exact ⟨e, hmem, rfl, hcand.2, hcand.1⟩
  · rintro ⟨e, hmem, rfl, hfile, hext⟩
    refine List.mem_map.2 ⟨e, List.mem_filter.2 ⟨hmem, ?_⟩, rfl⟩
    simp [isHeicCandidate, hfile, hext]

/-- Witness for C3: a.heic is enumerated via the characterization, and a
concrete event of the scenario run does not touch notes.txt. -/
theorem enumeration_exact_witness :
    "a.heic" ∈ findHeicFiles demoEntries ∧
    eventFile (Event.strategy "a.heic" 0
      (strategyCommand (joinPath "/photos" "a.heic")
        (outputPath "/photos" "a.heic") 0)) ≠ "notes.txt" := by
  refine ⟨(enumeration_exact.1 demoEntries "a.heic").mpr
    ⟨⟨"a.heic", true⟩, by decide, rfl, rfl, by decide⟩, ?_⟩
  exact enumeration_exact.2.2.2 _ (by decide)

/-- C6: every enumerated target yields exactly one outcome: the results
list has one entry per candidate, and converted + failed = found. -/
theorem outcome_tally (env : Env) (dir : String) (del : Bool) (files : List String) :
    (convertFiles env dir del files).results.length = files.length ∧
    (convertFiles env dir del files).summary.converted +
        (convertFiles env dir del files).summary.failed =
      (convertFiles env dir del files).summary.found := by
  refine ⟨by simp [convertFiles], ?_⟩
  show (files.map (processFile env dir del)).countP _ +
      (files.map (processFile env dir del)).countP _ = files.length
  rw [countP_add_countP_not, List.length_map]

/-- C8: a run whose preconditions hold but whose directory holds zero
candidates returns a summary with every counter zero, no per-file
results, no error, and exit status 0. -/
theorem zero_candidates_ok (env : Env) (dir : String) (del : Bool)
    (htool : env.toolAvailable = true) (hex : env.dirExists dir = true)
    (hdir : env.isDirectory dir = true) (hread : env.dirReadable dir = true)
    (hnone : findHeicFiles (env.entriesOf dir) = []) :
    mainCore env dir del = .ok ⟨⟨0, 0, 0, 0, 0⟩, [], none⟩ ∧
    exitCode (mainCore env dir del) = 0 := by
  have h : mainCore env dir del = .ok ⟨⟨0, 0, 0, 0, 0⟩, [], none⟩ := by
    unfold mainCore
    rw [htool, hex, hdir, hread]
    simp [hnone]
  exact ⟨h, by rw [h]; rfl⟩

/-- Witness for C8 on a concrete directory holding only notes.txt. -/
theorem zero_candidates_ok_witness :
    mainCore emptyDirEnv "/photos" false = .ok ⟨⟨0, 0, 0, 0, 0⟩, [], none⟩ ∧
    exitCode (mainCore emptyDirEnv "/photos" false) = 0 :=
  zero_candidates_ok emptyDirEnv "/photos" false rfl rfl rfl rfl (by decide)

/-- C10: with two positional arguments, the delete flag is exactly the
case-insensitive comparison of the second argument with "delete", and any
other second argument leaves the run identical to the folder-only
preserve-mode run: no error, no warning. -/
theorem second_arg_delete (env : Env) (d s : String) :
    parseArgs env [d, s] = (env.resolve d, lowerStr s == "delete") ∧
    (lowerStr s ≠ "delete" → main env [d, s] = mainCore env (env.resolve d) false) := by
  refine ⟨rfl, fun h => ?_⟩
  have hb : (lowerStr s == "delete") = false := beq_eq_false_iff_ne.mpr h
  show mainCore env (env.resolve d) (lowerStr s == "delete") =
    mainCore env (env.resolve d) false
  rw [hb]

/-- Witness for C10: "DELETE" enables delete mode; "backup" is silently
ignored and the run equals the preserve-mode run. -/
theorem second_arg_delete_witness :
    parseArgs demoEnv ["/photos", "DELETE"] = ("/photos", true) ∧
    main demoEnv ["/photos", "backup"] = mainCore demoEnv "/photos" false := by
  constructor
  · exact ((second_arg_delete demoEnv "/photos" "DELETE").1).trans (by decide)
  · exact (second_arg_delete demoEnv "/photos" "backup").2 (by decide)

/-- C1: the three strategies are tried in fixed order, success being
exit status zero; when the Nth strategy is the first to succeed, the
chain returns success at index N having invoked exactly strategies
0..N, the outcome is Converted, and no strategy after N appears in the
trace. -/
theorem strategy_short_circuit (env : Env) (dir : String) (del : Bool) (f : String)
    (n : Nat) (hn : n < 3)
    (hs : env.exitZero (strategyCommand (joinPath dir f) (outputPath dir f) n) = true)
    (hprev : ∀ m, m < n →
      env.exitZero (strategyCommand (joinPath dir f) (outputPath dir f) m) = false) :
    convertSingleFile env (joinPath dir f) (outputPath dir f) =
      (some n, List.range (n + 1)) ∧
    isConvertedB (processFile env dir del f).outcome = true ∧
    (∀ g m c, Event.strategy g m c ∈ (processFile env dir del f).events → m ≤ n) := by
  have hr1 : List.range 1 = [0] := rfl
  have hr2 : List.range 2 = [0, 1] := rfl
  have hr3 : List.range 3 = [0, 1, 2] := rfl
  have hc : convertSingleFile env (joinPath dir f) (outputPath dir f) =
      (some n, List.range (n + 1)) := by
    interval_cases n
    · simp [convertSingleFile, hs, hr1]
    · have h0 := hprev 0 (by norm_num)
      simp [convertSingleFile, hs, h0, hr2]
    · have h0 := hprev 0 (by norm_num)
      have h1 := hprev 1 (by norm_num)
      simp [convertSingleFile, hs, h0, h1, hr3]
  refine ⟨hc, ?_, ?_⟩
  · rw [isConvertedB_processFile, hc]
    rfl
  · intro g m c hm
    have hmem := strategy_event_invoked env dir del f g m c hm
    rw [hc] at hmem
    exact Nat.lt_succ_iff.mp (List.mem_range.1 hmem)

/-- Witness for C1: with the first strategy failing and the second
succeeding, the chain succeeds at index 1 having invoked exactly
strategies 0 and 1, and the target is Converted. -/
theorem strategy_short_circuit_witness :
    convertSingleFile secondTryEnv (joinPath "/photos" "a.heic")
        (outputPath "/photos" "a.heic") = (some 1, List.range 2) ∧
    isConvertedB (processFile secondTryEnv "/photos" false "a.heic").outcome = true := by
  have h := strategy_short_circuit secondTryEnv "/photos" false "a.heic" 1 (by norm_num)
    (by decide) (by intro m hm; interval_cases m; decide)
  exact ⟨h.1, h.2.1⟩

/-- C2: whenever a precondition fails — tool unavailable, directory
missing, or not a directory — the process exits with status 1 and no
file is touched (the event trace is empty); when the tool is
unavailable the orchestrator is never invoked and the result is exactly
ToolUnavailable. -/
theorem precondition_fatal (env : Env) (args : List String) :
    (env.toolAvailable = false → main env args = .fatal .toolUnavailable) ∧
    ((env.toolAvailable = false ∨
        env.dirExists (parseArgs env args).1 = false ∨
        env.isDirectory (parseArgs env args).1 = false) →
      exitCode (main env args) = 1 ∧ mainEvents (main env args) = []) := by
  have hm : main env args = mainCore env (parseArgs env args).1 (parseArgs env args).2 :=
    rfl
  rw [hm]
  constructor
  · intro h
    unfold mainCore
    rw [h]
    rfl
  · intro h
    unfold mainCore
    rcases Bool.eq_false_or_eq_true env.toolAvailable with ht | ht <;>
      rcases Bool.eq_false_or_eq_true
        (env.dirExists (parseArgs env args).1) with he | he <;>
      rcases Bool.eq_false_or_eq_true
        (env.isDirectory (parseArgs env args).1) with hd | hd <;>
      simp [ht, he, hd, exitCode, mainEvents] at h ⊢

/-- Witness for C2 with the tool absent. -/
theorem precondition_fatal_witness :
    main noToolEnv ["/photos"] = .fatal .toolUnavailable ∧
    exitCode (main noToolEnv ["/photos"]) = 1 ∧
    mainEvents (main noToolEnv ["/photos"]) = [] := by
  refine ⟨(precondition_fatal noToolEnv ["/photos"]).1 rfl, ?_⟩
  exact (precondition_fatal noToolEnv ["/photos"]).2 (Or.inl rfl)

/-- C4: when all three strategies fail, the outcome is Failed with the
last strategy's error text, the trace holds exactly the three strategy
invocations (no deletion is ever attempted, whatever the delete flag),
and the loop still processes every other target of the run. -/
theorem all_strategies_fail (env : Env) (dir : String) (del : Bool) (f : String)
    (pre post : List String)
    (h0 : env.exitZero (strategyCommand (joinPath dir f) (outputPath dir f) 0) = false)
    (h1 : env.exitZero (strategyCommand (joinPath dir f) (outputPath dir f) 1) = false)
    (h2 : env.exitZero (strategyCommand (joinPath dir f) (outputPath dir f) 2) = false) :
    (processFile env dir del f).outcome =
      .failed (env.errorText (strategyCommand (joinPath dir f) (outputPath dir f) 2)) ∧
    (processFile env dir del f).events =
      [Event.strategy f 0 (strategyCommand (joinPath dir f) (outputPath dir f) 0),
       Event.strategy f 1 (strategyCommand (joinPath dir f) (outputPath dir f) 1),
       Event.strategy f 2 (strategyCommand (joinPath dir f) (outputPath dir f) 2)] ∧
    (convertFiles env dir del (pre ++ f :: post)).results =
      pre.map (processFile env dir del) ++
        processFile env dir del f :: post.map (processFile env dir del) ∧
    (convertFiles env dir del (pre ++ f :: post)).summary.found =
      pre.length + 1 + post.length := by
  have hc : convertSingleFile env (joinPath dir f) (outputPath dir f) =
      (none, [0, 1, 2]) := by
    simp [convertSingleFile, h0, h1, h2]
  refine ⟨by simp [processFile, hc], ?_, by simp [convertFiles], ?_⟩
  · rw [processFile_events, hc]
    simp [stratEvents, hc]
  · simp [convertFiles]
    omega

/-- Witness for C4: with every command failing, a.heic is Failed with
the error text and the whole scenario directory still tallies found = 3,
failed = 3. -/
theorem all_strategies_fail_witness :
    (processFile allFailEnv "/photos" true "a.heic").outcome =
      .failed "convert error" ∧
    mainSummary (main allFailEnv ["/photos"]) = some ⟨3, 0, 3, 0, 0⟩ := by
  refine ⟨?_, by decide⟩
  exact (all_strategies_fail allFailEnv "/photos" true "a.heic" [] [] rfl rfl rfl).1

/-- C5: a deletion attempt occurs iff delete mode is on and the target's
outcome is Converted; and when the deletion fails the outcome is still
Converted (with the DeleteFailed sub-status), never Failed. -/
theorem delete_iff_converted (env : Env) (dir : String) (del : Bool) (f : String) :
    ((Event.deleteAttempt f ∈ (processFile env dir del f).events) ↔
      (del = true ∧ isConvertedB (processFile env dir del f).outcome = true)) ∧
    (del = true → env.deleteSucceeds (joinPath dir f) = false →
      isConvertedB (processFile env dir del f).outcome = true →
      (processFile env dir del f).outcome =
        .converted (outputPath dir f) .deleteFailed) := by
  constructor
  · rw [processFile_events, isConvertedB_processFile]
    constructor
    · intro h
      rcases List.mem_append.1 h with h' | h'
      · exact absurd h' (deleteAttempt_not_mem_stratEvents env dir f f)
      · split at h'
        · rename_i hcond
          simp only [Bool.and_eq_true] at hcond
          exact ⟨hcond.2, hcond.1⟩
        · simp at h'
    · rintro ⟨hdel, hconv⟩
      refine List.mem_append.2 (Or.inr ?_)
      rw [hconv, hdel]
      show Event.deleteAttempt f ∈ delEvents env dir f
      unfold delEvents
      split <;> simp
  · intro hdel hd hconv
    rw [isConvertedB_processFile] at hconv
    rcases hc : (convertSingleFile env (joinPath dir f) (outputPath dir f)).1 with _ | n
    · rw [hc] at hconv
      simp at hconv
    · simp [processFile, hc, hdel, hd]

/-- Witness for C5: conversion succeeds, delete mode on, deletion fails:
the outcome stays Converted with DeleteFailed, and a deletion attempt is
in the trace. -/
theorem delete_iff_converted_witness :
    (processFile deleteFailEnv "/photos" true "a.heic").outcome =
      .converted (outputPath "/photos" "a.heic") .deleteFailed ∧
    Event.deleteAttempt "a.heic" ∈ (processFile deleteFailEnv "/photos" true "a.heic").events := by
  have h := delete_iff_converted deleteFailEnv "/photos" true "a.heic"
  exact ⟨h.2 rfl rfl (by decide), h.1.mpr ⟨rfl, by decide⟩⟩

/-- C7 counterexample: a run over a directory holding zero candidates is
non-fatal (exit status 0) and yet emits no final report: the claim that
every non-fatal run emits a final report (with found, converted, failed,
deleted, delete-failed counts) fails at this input. -/
theorem no_report_on_zero_candidates :
    exitCode (main emptyDirEnv []) = 0 ∧
    mainReport (main emptyDirEnv []) = none ∧
    mainSummary (main emptyDirEnv []) = some ⟨0, 0, 0, 0, 0⟩ := by
  exact ⟨by decide, by decide, by decide⟩

/-- C7 (amended): on every non-fatal run the final report exists iff at
least one candidate was found, and then it is emitted exactly once and
carries exactly the converted count and — only when positive — the
failed count; deleted and delete-failed tallies are not part of it. -/
theorem report_amended (env : Env) (args : List String) (r : RunResult)
    (h : main env args = .ok r) :
    r.report = (if r.summary.found = 0 then none else
      some { convertedLine := r.summary.converted,
             failedLine :=
               if 0 < r.summary.failed then some r.summary.failed else none }) := by
  have hm : mainCore env (parseArgs env args).1 (parseArgs env args).2 = .ok r := h
  unfold mainCore at hm
  split at hm
  · cases hm
  · split at hm
    · cases hm
    · split at hm
      · cases hm
      · split at hm
        · cases hm
        · split at hm
          · cases hm
            rfl
          · rename_i hempty
            cases hm
            have hne : (findHeicFiles (env.entriesOf (parseArgs env args).1)).length ≠ 0 := by
              intro h0
              apply hempty
              have hnil : findHeicFiles (env.entriesOf (parseArgs env args).1) = [] :=
                List.eq_nil_of_length_eq_zero h0
              rw [hnil]
              rfl
            simp only [convertFiles]
            rw [if_neg hne]

/-- Witness for C7 (amended) on the scenario directory. -/
theorem report_amended_witness :
    demoRun.report = (if demoRun.summary.found = 0 then none else
      some { convertedLine := demoRun.summary.converted,
             failedLine :=
               if 0 < demoRun.summary.failed then some demoRun.summary.failed else none }) :=
  report_amended demoEnv ["/photos"] demoRun (by decide)

/-- C9: the output path is the same parent directory, the same base
name, and the ".jpg" extension; the run is identical whatever files
already exist at output paths (no uniqueness check, silent overwrite,
no signal), and every conversion command targets exactly the computed
output path. -/
theorem output_path_overwrite (env : Env) (args : List String) (g : String → Bool)
    (dir f gname : String) (del : Bool) (m : Nat) (c : String) :
    outputPath dir f = dir ++ "/" ++ baseName f ++ ".jpg" ∧
    main { env with fileExists := g } args = main env args ∧
    (Event.strategy gname m c ∈ (processFile env dir del f).events →
      c = strategyCommand (joinPath dir f) (outputPath dir f) m ∧ gname = f) := by
  refine ⟨?_, rfl, fun h => ?_⟩
  · simp [outputPath, joinPath, String.append_assoc]
  · have hs := strategy_event_shape env dir del f gname m c h
    exact ⟨hs.2, hs.1⟩

/-- Witness for C9: a concrete target's output path, and a strategy
event drawn from a concrete trace targeting it. -/
theorem output_path_overwrite_witness :
    outputPath "/photos" "a.heic" = "/photos/a.jpg" ∧
    (strategyCommand (joinPath "/photos" "a.heic") (outputPath "/photos" "a.heic") 0 =
        strategyCommand (joinPath "/photos" "a.heic") (outputPath "/photos" "a.heic") 0 ∧
      "a.heic" = "a.heic") := by
  have h := output_path_overwrite demoEnv [] (fun _ => true) "/photos" "a.heic" "a.heic"
    false 0 (strategyCommand (joinPath "/photos" "a.heic") (outputPath "/photos" "a.heic") 0)
  exact ⟨by decide, h.2.2 (by decide)⟩

end ConvertTools
